import Mathlib

/-!
Shallow embedding of the Stirlingshire-Boardy attribution ledger
(introductions, hires, placements, reconciliation scheduler), translated
from the TypeScript services:

* `src/placements/placements.service.ts`   (`PlacementsService`)
* `src/introductions/introductions.service.ts` and its controller
* `src/hires/hires.service.ts`             (`HiresService`)
* `src/brokercheck/brokercheck-sync.service.ts` (`BrokerCheckSyncService`)
* the Prisma migration (unique indexes on `introduction` and `placement`)

The relational store is a record of lists; each Prisma call is a pure
function on that record; fallible operations return `Except`; external
I/O (Slack, vendor webhooks, the BrokerCheck registry, rate-limit
delays) is recorded as an explicit effect trace, with outcomes of the
external world supplied by an `Env` oracle.
-/

namespace StirBoardy

/-- Calendar dates as stored in the `TIMESTAMPTZ` columns and compared as
JavaScript `Date` objects; for year/month/day triples the chronological
order is lexicographic.  `month` is kept 1-based; only month differences
matter, so the 0-based `getMonth()` basis cancels. -/
structure SDate where
  year : Int
  month : Int
  day : Int
deriving DecidableEq, Repr

/-- JavaScript `a <= b` on `Date` objects (epoch-millisecond comparison),
restricted to dates: lexicographic on (year, month, day). -/
def dateLe (a b : SDate) : Bool :=
  decide (a.year < b.year ∨ (a.year = b.year ∧
    (a.month < b.month ∨ (a.month = b.month ∧ a.day ≤ b.day))))

/-- The calendar-month difference computed by both `PlacementsService.create`
and `PlacementsService.matchHireToIntroductions`:
`(hireDate.getFullYear() - introDate.getFullYear()) * 12 +
 (hireDate.getMonth() - introDate.getMonth())`. -/
def monthsDiff (introDate hireDate : SDate) : Int :=
  (hireDate.year - introDate.year) * 12 + (hireDate.month - introDate.month)

/-- Prisma enum `IntroductionStatus`. -/
inductive IntroStatus where
  | OPEN
  | PLACED
  | EXPIRED
  | CANCELLED
deriving DecidableEq, Repr

/-- Prisma enum `PlacementStatus`. -/
inductive PlacementState where
  | PENDING_NOTIFY
  | NOTIFIED
  | INVOICED
  | PAID
  | DISPUTED
deriving DecidableEq, Repr

/-- Source: `HireSource` enum from `src/hires/dto/create-hire.dto.ts`. -/
inductive HireSource where
  | INTERNAL_ONBOARDING
  | FINRA_WEEKLY_SYNC
  | BROKERCHECK_SYNC
  | MANUAL_ENTRY
deriving DecidableEq, Repr

/-- The vendor's `placementTerms` JSON bag (`PlacementTermsDto`): every field
optional. -/
structure PlacementTerms where
  feePercentage : Option Int := none
  flatFee : Option Int := none
  attributionWindowMonths : Option Int := none
deriving DecidableEq, Repr

/-- JavaScript `x || y` applied to an optional numeric field: both
`undefined` and `0` are falsy and fall through to the default.  Used for
`terms.attributionWindowMonths || this.defaultAttributionWindowMonths`
and for `terms.flatFee` truthiness. -/
def jsOrNum (x : Option Int) (y : Int) : Int :=
  match x with
  | some v => if v = 0 then y else v
  | none => y

/-- Source: `vendor` table row (fields the embedded services read). -/
structure Vendor where
  id : Nat
  name : String
  placementTerms : Option PlacementTerms
  isActive : Bool
deriving DecidableEq, Repr

/-- Source: `introduction` table row (fields the embedded services read). -/
structure Introduction where
  id : Nat
  vendorId : Nat
  candidateCrd : Nat
  candidateFirstName : String
  candidateLastName : String
  introTimestamp : SDate
  conversationId : String
  status : IntroStatus
deriving DecidableEq, Repr

/-- Source: `hire` table row (fields the embedded services read). -/
structure Hire where
  id : Nat
  crdNumber : Nat
  firstName : String
  lastName : String
  firmEntity : String
  firmCrd : Option Nat
  hireDate : SDate
  source : HireSource
deriving DecidableEq, Repr

/-- Source: `placement` table row. -/
structure Placement where
  id : Nat
  vendorId : Nat
  introductionId : Nat
  hireId : Nat
  candidateCrd : Nat
  hireDate : SDate
  feeAmount : Int
  feeCurrency : String
  termsSnapshot : PlacementTerms
  status : PlacementState
deriving DecidableEq, Repr

/-- Source: `audit_log` row as written through `AuditService.log`.  `entityId` is
`none` for the string-keyed batch entry `BROKERCHECK_SYNC_BATCH`. -/
structure AuditEntry where
  entityType : String
  entityId : Option Nat
  eventType : String
  source : String
deriving DecidableEq, Repr

/-- Source: `brokercheck_advisor` row (the tracking upsert in the weekly sync). -/
structure BrokerAdvisor where
  crdNumber : Nat
  firmCrd : Nat
  firmName : String
  isActive : Bool
deriving DecidableEq, Repr

/-- The relational store.  `nextId` models the id generator for inserted
rows (UUIDs in the source; opaque and fresh is all that matters). -/
structure DB where
  vendors : List Vendor
  introductions : List Introduction
  hires : List Hire
  placements : List Placement
  auditLog : List AuditEntry
  brokerAdvisors : List BrokerAdvisor
  nextId : Nat
deriving DecidableEq, Repr

/-- External side effects emitted by the services, in order. -/
inductive Effect where
  | bookMeeting (crd : Nat)
  | slackNewIntroduction (crd : Nat)
  | vendorPlacementNotify (vendorId : Nat) (placementId : Nat)
  | internalNewPlacement (placementId : Nat)
  | slackNewPlacement (placementId : Nat)
  | registryCall (crd : Nat)
  | rateLimitDelay
  | hireCreateCall (crd : Nat)
  | matchCall (crd : Nat) (hireId : Nat)
  | syncAlert (message : String)
deriving DecidableEq, Repr

/-- Typed errors thrown by the services (`NotFoundException`,
`BadRequestException`) and by the store's unique indexes (Prisma P2002). -/
inductive SvcError where
  | notFound (message : String)
  | badRequest (message : String)
  | uniqueViolation (message : String)
deriving DecidableEq, Repr

/-- A record returned by the BrokerCheck client's `verifyAdvisorAtFirm`. -/
structure RegistryAdvisor where
  crdNumber : Nat
  firstName : String
  lastName : String
  firmCrd : Nat
  firmName : String
deriving DecidableEq, Repr

/-- Outcome of one external-registry call: affiliation found, not found,
or a thrown transient error. -/
inductive RegistryOutcome where
  | found (advisor : RegistryAdvisor)
  | notFound
  | failed (message : String)
deriving DecidableEq, Repr

/-- Whether a registry outcome reports a current affiliation (the truthy
`if (advisor)` test in the sync loop). -/
def isFound : RegistryOutcome → Bool
  | .found _ => true
  | _ => false

/-- Configuration and external-world oracle: the config-resolved default
attribution window, outcomes of notification/booking attempts, the
server clock (`new Date()` in the sync), the sync enable flag, whether
the open-introduction fetch at the start of a sync run succeeds, and the
registry's answer per CRD. -/
structure Env where
  defaultAttributionWindowMonths : Int
  vendorNotifySucceeds : Bool
  today : SDate
  syncEnabled : Bool
  introFetchOk : Bool
  introFetchError : String
  registry : Nat → RegistryOutcome

/-- Source: `findFirst` / `findUnique`: first row satisfying the predicate. -/
def findBy (p : α → Prop) [DecidablePred p] : List α → Option α
  | [] => none
  | x :: xs => if p x then some x else findBy p xs

/-- Number of rows satisfying a predicate. -/
def countBy (p : α → Prop) [DecidablePred p] : List α → Nat
  | [] => 0
  | x :: xs => (if p x then 1 else 0) + countBy p xs

/-- Source: `prisma.vendor.findUnique({ where: { id } })`. -/
def findVendor (db : DB) (id : Nat) : Option Vendor :=
  findBy (fun v => v.id = id) db.vendors

/-- Source: `prisma.introduction.findUnique({ where: { id } })`. -/
def findIntroduction (db : DB) (id : Nat) : Option Introduction :=
  findBy (fun i => i.id = id) db.introductions

/-- Source: `prisma.hire.findUnique({ where: { id } })`. -/
def findHire (db : DB) (id : Nat) : Option Hire :=
  findBy (fun h => h.id = id) db.hires

/-- The `placementTerms` of the introduction's vendor, with the JS fallback
`(introduction.vendor.placementTerms as PlacementTerms) || {}`. -/
def vendorTermsFor (db : DB) (intro : Introduction) : PlacementTerms :=
  match findVendor db intro.vendorId with
  | some v => v.placementTerms.getD {}
  | none => {}

/-- The attribution window used for an introduction:
`terms.attributionWindowMonths || this.defaultAttributionWindowMonths`. -/
def attributionWindow (env : Env) (terms : PlacementTerms) : Int :=
  jsOrNum terms.attributionWindowMonths env.defaultAttributionWindowMonths

/-- Fee resolution in `PlacementsService.create`: explicit override, else
truthy `terms.flatFee`, else the fee-percentage branch which resolves to
`0` without salary data, else `0`. -/
def resolveFee (feeOverride : Option Int) (terms : PlacementTerms) : Int :=
  match feeOverride with
  | some f => f
  | none => jsOrNum terms.flatFee 0

/-- Source: `prisma.introduction.update({ where: { id }, data: { status } })`. -/
def setIntroductionStatus (db : DB) (id : Nat) (st : IntroStatus) : DB :=
  { db with introductions :=
      db.introductions.map (fun i => if i.id = id then { i with status := st } else i) }

/-- First half of `PlacementsService.create` (source lines 44-127): all
validation — introduction lookup, OPEN check, hire lookup, CRD match,
attribution-window bound, fee resolution — followed by the FIRST database
write, `prisma.placement.create`.  The unique index
`placement_introduction_id_key` makes that insert throw (Prisma P2002)
when a placement already references the introduction.  The returned
store is the durable state after this write resolves and BEFORE the
separate `prisma.introduction.update` write runs; the two writes are not
wrapped in a transaction in the source. -/
def placementCreateFirstWrite (env : Env) (db : DB) (introductionId hireId : Nat)
    (feeOverride : Option Int) (feeCurrency : Option String) :
    Except SvcError (DB × Placement) :=
  match findIntroduction db introductionId with
  | none => .error (.notFound "Introduction not found")
  | some intro =>
    if intro.status ≠ IntroStatus.OPEN then
      .error (.badRequest "Introduction is not in OPEN status")
    else
      match findHire db hireId with
      | none => .error (.notFound "Hire not found")
      | some hire =>
        if intro.candidateCrd ≠ hire.crdNumber then
          .error (.badRequest "CRD mismatch")
        else
          if monthsDiff intro.introTimestamp hire.hireDate >
              attributionWindow env (vendorTermsFor db intro) then
            .error (.badRequest "Hire date is outside attribution window")
          else
            if ∃ p ∈ db.placements, p.introductionId = introductionId then
              .error (.uniqueViolation "placement_introduction_id_key")
            else
              let p : Placement := {
                id := db.nextId
                vendorId := intro.vendorId
                introductionId := introductionId
                hireId := hireId
                candidateCrd := hire.crdNumber
                hireDate := hire.hireDate
                feeAmount := resolveFee feeOverride (vendorTermsFor db intro)
                feeCurrency := feeCurrency.getD "USD"
                termsSnapshot := vendorTermsFor db intro
                status := PlacementState.PENDING_NOTIFY }
              .ok ({ db with placements := p :: db.placements, nextId := db.nextId + 1 }, p)

/-- Source: `prisma.placement.update({ where: { id }, data: { status } })`. -/
def setPlacementStatus (db : DB) (id : Nat) (st : PlacementState) : DB :=
  { db with placements :=
      db.placements.map (fun p => if p.id = id then { p with status := st } else p) }

/-- Full `PlacementsService.create` (source lines 44-221), on the run where
every write resolves: the placement insert, then the separate
introduction-status update to PLACED, the two audit entries, the vendor
notification attempt (placement advanced to NOTIFIED when it succeeds),
and the internal/Slack notifications. -/
def placementCreate (env : Env) (db : DB) (introductionId hireId : Nat)
    (feeOverride : Option Int) (feeCurrency : Option String) :
    Except SvcError (DB × Placement × List Effect) :=
  match placementCreateFirstWrite env db introductionId hireId feeOverride feeCurrency with
  | .error e => .error e
  | .ok (db1, p) =>
    let db2 := setIntroductionStatus db1 introductionId IntroStatus.PLACED
    let db3 := { db2 with auditLog := db2.auditLog ++
      [ { entityType := "PLACEMENT", entityId := some p.id
          eventType := "CREATED", source := "SYSTEM" },
        { entityType := "INTRODUCTION", entityId := some introductionId
          eventType := "STATUS_CHANGED", source := "SYSTEM" } ] }
    let db4 := if env.vendorNotifySucceeds
      then setPlacementStatus db3 p.id PlacementState.NOTIFIED
      else db3
    .ok (db4, p,
      [ Effect.vendorPlacementNotify p.vendorId p.id,
        Effect.internalNewPlacement p.id,
        Effect.slackNewPlacement p.id ])

/-- Ordering relation behind `orderBy: { introTimestamp: 'asc' }`. -/
def introTsLE (a b : Introduction) : Prop :=
  dateLe a.introTimestamp b.introTimestamp = true

instance : DecidableRel introTsLE := fun _ _ => decEq _ _

instance : IsTotal Introduction introTsLE :=
  ⟨fun a b => by simp [introTsLE, dateLe]; omega⟩

instance : IsTrans Introduction introTsLE :=
  ⟨fun a b c h1 h2 => by simp [introTsLE, dateLe] at h1 h2 ⊢; omega⟩

/-- Ordering relation behind `orderBy: { introTimestamp: 'desc' }`. -/
def introTsGE (a b : Introduction) : Prop :=
  dateLe b.introTimestamp a.introTimestamp = true

instance : DecidableRel introTsGE := fun _ _ => decEq _ _

/-- The rows selected by `findOpenIntroductionsForCrd`'s `where` clause:
OPEN introductions for the CRD. -/
def openFor (db : DB) (crd : Nat) : List Introduction :=
  db.introductions.filter (fun i => decide (i.candidateCrd = crd ∧ i.status = IntroStatus.OPEN))

/-- Source: `IntroductionsService.findOpenIntroductionsForCrd`: all OPEN
introductions for the CRD, ordered by `introTimestamp` ascending. -/
def findOpenIntroductionsForCrd (db : DB) (crd : Nat) : List Introduction :=
  List.insertionSort introTsLE (openFor db crd)

/-- The acceptance test of the scan loop in
`PlacementsService.matchHireToIntroductions`:
`monthsDiff <= attributionMonths && hireDate >= introDate` (the vendor's
terms come from the row join; here looked up through the foreign key). -/
def acceptsIntro (env : Env) (db : DB) (hire : Hire) (intro : Introduction) : Bool :=
  let terms := vendorTermsFor db intro
  decide (monthsDiff intro.introTimestamp hire.hireDate ≤ attributionWindow env terms) &&
    dateLe intro.introTimestamp hire.hireDate

/-- The `for (const intro of openIntros)` loop: on the first introduction
passing `acceptsIntro`, delegate to `PlacementsService.create` and return
the created placement's id; a creation failure propagates (the scan does
not fall through); if no introduction matches, return `none`. -/
def matchScan (env : Env) (db : DB) (hire : Hire) :
    List Introduction → Except SvcError (DB × Option Nat × List Effect)
  | [] => .ok (db, none, [])
  | intro :: rest =>
    if acceptsIntro env db hire intro then
      match placementCreate env db intro.id hire.id none none with
      | .error e => .error e
      | .ok (db2, p, effs) => .ok (db2, some p.id, effs)
    else matchScan env db hire rest

/-- Source: `PlacementsService.matchHireToIntroductions` (source lines 223-272). -/
def matchHireToIntroductions (env : Env) (db : DB) (hireId : Nat) :
    Except SvcError (DB × Option Nat × List Effect) :=
  match findHire db hireId with
  | none => .error (.notFound "Hire not found")
  | some hire =>
    let openIntros := findOpenIntroductionsForCrd db hire.crdNumber
    if openIntros.isEmpty then .ok (db, none, [])
    else matchScan env db hire openIntros

/-- Source: `CreateIntroductionDto` (fields the embedded service reads; the
optional meeting start time drives the calendar-booking branch). -/
structure CreateIntroductionDto where
  candidateCrd : Nat
  firstName : String
  lastName : String
  conversationId : String
  introTimestamp : SDate
  meetingStartTime : Option SDate := none
deriving DecidableEq, Repr

/-- The idempotency key of `IntroductionsService.create`: the unique triple
`(vendorId, candidateCrd, conversationId)`. -/
def introMatchesKey (vendorId : Nat) (dto : CreateIntroductionDto) (i : Introduction) : Prop :=
  i.vendorId = vendorId ∧ i.candidateCrd = dto.candidateCrd ∧
    i.conversationId = dto.conversationId

instance (vendorId : Nat) (dto : CreateIntroductionDto) :
    DecidablePred (introMatchesKey vendorId dto) := fun i => by
  unfold introMatchesKey; infer_instance

/-- The row inserted by `prisma.introduction.create` in
`IntroductionsService.create`: the dto's fields with a fresh id and
status OPEN. -/
def newIntroRow (db : DB) (vendorId : Nat) (dto : CreateIntroductionDto) : Introduction := {
  id := db.nextId
  vendorId := vendorId
  candidateCrd := dto.candidateCrd
  candidateFirstName := dto.firstName
  candidateLastName := dto.lastName
  introTimestamp := dto.introTimestamp
  conversationId := dto.conversationId
  status := IntroStatus.OPEN }

/-- Source: `IntroductionsService.create` (source lines 144-279): look up the
unique triple; when it exists, return the existing row with no further
write or side effect; otherwise book the meeting when a start time is
supplied, insert the row with status OPEN, write the CREATED audit entry
and send the Slack notification. -/
def introCreate (db : DB) (vendorId : Nat) (dto : CreateIntroductionDto) :
    DB × Introduction × List Effect :=
  match findBy (introMatchesKey vendorId dto) db.introductions with
  | some existing => (db, existing, [])
  | none =>
    let meetingEffects :=
      if dto.meetingStartTime.isSome then [Effect.bookMeeting dto.candidateCrd] else []
    let intro := newIntroRow db vendorId dto
    let db1 := { db with introductions := intro :: db.introductions, nextId := db.nextId + 1 }
    let db2 := { db1 with auditLog := db1.auditLog ++
      [ { entityType := "INTRODUCTION", entityId := some intro.id
          eventType := "CREATED", source := "BOARDY_API" } ] }
    (db2, intro, meetingEffects ++ [Effect.slackNewIntroduction dto.candidateCrd])

/-- Source: `IntroductionsService.findOne`: `findFirst({ where: { id, vendorId } })`,
404 when absent. -/
def introFindOne (db : DB) (vendorId : Nat) (id : Nat) : Except SvcError Introduction :=
  match findBy (fun i => i.id = id ∧ i.vendorId = vendorId) db.introductions with
  | none => .error (.notFound "Introduction not found")
  | some i => .ok i

/-- Source: `IntroductionsService.findByCrd`: the vendor's introductions for the
CRD, newest first. -/
def introFindByCrd (db : DB) (vendorId : Nat) (crd : Nat) : List Introduction :=
  List.insertionSort introTsGE
    (db.introductions.filter (fun i => decide (i.vendorId = vendorId ∧ i.candidateCrd = crd)))

/-- Source: `IntroductionsService.updateStatus`: vendor-scoped lookup (404 when
absent); no-op returning the current row when the requested status equals
the current one; otherwise persist the new status and audit the change. -/
def introUpdateStatus (db : DB) (vendorId : Nat) (id : Nat)
    (newStatus : Option IntroStatus) (source : String) :
    Except SvcError (DB × Introduction) :=
  match findBy (fun i => i.id = id ∧ i.vendorId = vendorId) db.introductions with
  | none => .error (.notFound "Introduction not found")
  | some existing =>
    match newStatus with
    | some st =>
      if existing.status = st then .ok (db, existing)
      else
        let db1 := setIntroductionStatus db id st
        let db2 := { db1 with auditLog := db1.auditLog ++
          [ { entityType := "INTRODUCTION", entityId := some id
              eventType := "STATUS_CHANGED", source := source } ] }
        .ok (db2, { existing with status := st })
    | none =>
      let db2 := { db with auditLog := db.auditLog ++
        [ { entityType := "INTRODUCTION", entityId := some id
            eventType := "STATUS_CHANGED", source := source } ] }
      .ok (db2, existing)

/-- The vendor id every `IntroductionsController` handler actually passes
to the service: the authenticated vendor's own id whenever the URL path
segment differs from it. -/
def effectiveVendorId (pathVendorId : Nat) (vendor : Vendor) : Nat :=
  if vendor.id ≠ pathVendorId then vendor.id else pathVendorId

/-- Source: `IntroductionsController.create`: `if (vendor.id !== vendorId) return
svc.create(vendor.id, dto); return svc.create(vendorId, dto);`. -/
def controllerIntroCreate (db : DB) (pathVendorId : Nat) (vendor : Vendor)
    (dto : CreateIntroductionDto) : DB × Introduction × List Effect :=
  if vendor.id ≠ pathVendorId then introCreate db vendor.id dto
  else introCreate db pathVendorId dto

/-- Source: `IntroductionsController.findByCrd`. -/
def controllerIntroFindByCrd (db : DB) (pathVendorId : Nat) (vendor : Vendor)
    (crd : Nat) : List Introduction :=
  introFindByCrd db (effectiveVendorId pathVendorId vendor) crd

/-- Source: `IntroductionsController.findOne`. -/
def controllerIntroFindOne (db : DB) (pathVendorId : Nat) (vendor : Vendor)
    (id : Nat) : Except SvcError Introduction :=
  introFindOne db (effectiveVendorId pathVendorId vendor) id

/-- Source: `IntroductionsController.update`. -/
def controllerIntroUpdate (db : DB) (pathVendorId : Nat) (vendor : Vendor)
    (id : Nat) (newStatus : Option IntroStatus) : Except SvcError (DB × Introduction) :=
  introUpdateStatus db (effectiveVendorId pathVendorId vendor) id newStatus "BOARDY_API"

/-- Source: `CreateHireDto` (fields the embedded service reads). -/
structure CreateHireDto where
  crdNumber : Nat
  firstName : String
  lastName : String
  firmEntity : String
  firmCrd : Option Nat := none
  hireDate : SDate
  source : Option HireSource := none
deriving DecidableEq, Repr

/-- The duplicate test of `HiresService.create`: the triple
`(crdNumber, firmEntity, hireDate)`. -/
def hireMatchesKey (dto : CreateHireDto) (h : Hire) : Prop :=
  h.crdNumber = dto.crdNumber ∧ h.firmEntity = dto.firmEntity ∧ h.hireDate = dto.hireDate

instance (dto : CreateHireDto) : DecidablePred (hireMatchesKey dto) := fun h => by
  unfold hireMatchesKey; infer_instance

/-- The row inserted by `prisma.hire.create` in `HiresService.create`
(source tag defaulting to INTERNAL_ONBOARDING). -/
def newHireRow (db : DB) (dto : CreateHireDto) : Hire := {
  id := db.nextId
  crdNumber := dto.crdNumber
  firstName := dto.firstName
  lastName := dto.lastName
  firmEntity := dto.firmEntity
  firmCrd := dto.firmCrd
  hireDate := dto.hireDate
  source := dto.source.getD HireSource.INTERNAL_ONBOARDING }

/-- Source: `HiresService.create` (source lines 27-76): `findFirst` on the triple;
when a row exists, return it with no write; otherwise insert and write
the CREATED audit entry. -/
def hireCreate (db : DB) (dto : CreateHireDto) (auditSource : String) : DB × Hire :=
  match findBy (hireMatchesKey dto) db.hires with
  | some existing => (db, existing)
  | none =>
    let hire := newHireRow db dto
    let db1 := { db with hires := hire :: db.hires, nextId := db.nextId + 1 }
    let db2 := { db1 with auditLog := db1.auditLog ++
      [ { entityType := "HIRE", entityId := some hire.id
          eventType := "CREATED", source := auditSource } ] }
    (db2, hire)

/-- The scheduler's in-memory circuit-breaker state. -/
structure SyncState where
  consecutiveFailures : Nat
deriving DecidableEq, Repr

/-- Source: `private readonly maxFailures = 5`. -/
def maxFailures : Nat := 5

/-- Source: `BrokerCheckSyncResult`, the per-run summary. -/
structure SyncResult where
  totalFetched : Nat := 0
  newAdvisors : Nat := 0
  departedAdvisors : Nat := 0
  existingAdvisors : Nat := 0
  hiresCreated : Nat := 0
  placementsCreated : Nat := 0
  errors : List String := []
deriving DecidableEq, Repr

/-- Source: `createEmptyResult(reason)`: all counters zero, the reason as sole
error entry. -/
def createEmptyResult (reason : String) : SyncResult := { errors := [reason] }

/-- Source: `[...new Set(xs)]`: deduplicate keeping first occurrences. -/
def dedupGo (seen : List Nat) : List Nat → List Nat
  | [] => []
  | x :: xs => if x ∈ seen then dedupGo seen xs else x :: dedupGo (x :: seen) xs

/-- Source: `[...new Set(xs)]`. -/
def dedupNats (l : List Nat) : List Nat := dedupGo [] l

/-- The message of a caught service error, as pushed onto the per-run
error list. -/
def errMessage : SvcError → String
  | .notFound m => m
  | .badRequest m => m
  | .uniqueViolation m => m

/-- Step 1 of a sync run: the distinct CRDs across all currently-OPEN
introductions, first occurrence first
(`[...new Set(openIntroductions.map(i => Number(i.candidateCrd)))]`). -/
def openCandidateCrds (db : DB) : List Nat :=
  dedupNats ((db.introductions.filter (fun i => decide (i.status = IntroStatus.OPEN))).map
    (fun i => i.candidateCrd))

/-- Source: `trackAdvisor`: upsert into `brokercheck_advisor` keyed on CRD. -/
def upsertBrokerAdvisor (db : DB) (adv : RegistryAdvisor) : DB :=
  let row : BrokerAdvisor := {
    crdNumber := adv.crdNumber, firmCrd := adv.firmCrd
    firmName := adv.firmName, isActive := true }
  if (findBy (fun b => b.crdNumber = adv.crdNumber) db.brokerAdvisors).isSome then
    { db with brokerAdvisors :=
        db.brokerAdvisors.map (fun b => if b.crdNumber = adv.crdNumber then row else b) }
  else
    { db with brokerAdvisors := row :: db.brokerAdvisors }

/-- The synthetic-hire request built in the found-branch of the sync loop:
the advisor's registry record with `hireDate` set to today, tagged
BROKERCHECK_SYNC. -/
def foundHireDto (adv : RegistryAdvisor) (today : SDate) : CreateHireDto := {
  crdNumber := adv.crdNumber
  firstName := adv.firstName
  lastName := adv.lastName
  firmEntity := adv.firmName
  firmCrd := some adv.firmCrd
  hireDate := today
  source := some HireSource.BROKERCHECK_SYNC }

/-- The per-candidate loop of `runWeeklySync` (source lines 152-202).  Each
iteration calls the registry once; on a positive match it increments
`newAdvisors`, invokes `HiresService.create`, increments `hiresCreated`
unconditionally, invokes `matchHireToIntroductions`, increments
`placementsCreated` when a placement id comes back, and tracks the
advisor; any throw inside the iteration is caught, its message pushed
onto `errors`, and the loop continues with the next candidate. -/
def syncLoop (env : Env) (db : DB) (res : SyncResult) (effs : List Effect) :
    List Nat → DB × SyncResult × List Effect
  | [] => (db, res, effs)
  | crd :: rest =>
    match env.registry crd with
    | .failed msg =>
      syncLoop env db
        { res with errors := res.errors ++ ["Error checking CRD " ++ toString crd ++ ": " ++ msg] }
        (effs ++ [Effect.registryCall crd]) rest
    | .notFound =>
      syncLoop env db res (effs ++ [Effect.registryCall crd, Effect.rateLimitDelay]) rest
    | .found adv =>
      match matchHireToIntroductions env
          (hireCreate db (foundHireDto adv env.today) "BROKERCHECK_SYNC").1
          (hireCreate db (foundHireDto adv env.today) "BROKERCHECK_SYNC").2.id with
      | .error e =>
        syncLoop env (hireCreate db (foundHireDto adv env.today) "BROKERCHECK_SYNC").1
          { res with
              newAdvisors := res.newAdvisors + 1
              hiresCreated := res.hiresCreated + 1
              errors := res.errors ++
                ["Error checking CRD " ++ toString crd ++ ": " ++ errMessage e] }
          (effs ++ [Effect.registryCall crd, Effect.hireCreateCall crd,
            Effect.matchCall crd (hireCreate db (foundHireDto adv env.today) "BROKERCHECK_SYNC").2.id])
          rest
      | .ok (db2, placementId?, matchEffs) =>
        syncLoop env (upsertBrokerAdvisor db2 adv)
          (match placementId? with
            | some _ => { res with
                newAdvisors := res.newAdvisors + 1
                hiresCreated := res.hiresCreated + 1
                placementsCreated := res.placementsCreated + 1 }
            | none => { res with
                newAdvisors := res.newAdvisors + 1
                hiresCreated := res.hiresCreated + 1 })
          (effs ++ [Effect.registryCall crd, Effect.hireCreateCall crd,
            Effect.matchCall crd (hireCreate db (foundHireDto adv env.today) "BROKERCHECK_SYNC").2.id] ++
            matchEffs ++ [Effect.rateLimitDelay])
          rest

/-- Source: `BrokerCheckSyncService.runWeeklySync` (source lines 105-240): the
enable-flag guard, the circuit-breaker guard (skip and alert at five or
more consecutive failures), the open-introduction fetch whose failure
increments the failure counter and alerts, the early return on an empty
candidate list, the per-candidate loop, the counter reset to zero after
the loop, and the batch audit entry. -/
def runWeeklySync (env : Env) (st : SyncState) (db : DB) :
    SyncState × DB × SyncResult × List Effect :=
  if ¬env.syncEnabled then
    (st, db, createEmptyResult "Sync disabled", [])
  else if st.consecutiveFailures ≥ maxFailures then
    (st, db, createEmptyResult "Circuit breaker open",
      [Effect.syncAlert "Circuit breaker open after repeated failures"])
  else if ¬env.introFetchOk then
    ({ consecutiveFailures := st.consecutiveFailures + 1 }, db,
      { errors := ["BrokerCheck sync failed: " ++ env.introFetchError] },
      [Effect.syncAlert ("BrokerCheck sync failed: " ++ env.introFetchError)])
  else if (openCandidateCrds db).length = 0 then
    (st, db, { totalFetched := (openCandidateCrds db).length }, [])
  else
    ({ consecutiveFailures := 0 },
      { (syncLoop env db { totalFetched := (openCandidateCrds db).length } []
          (openCandidateCrds db)).1 with
        auditLog := (syncLoop env db { totalFetched := (openCandidateCrds db).length } []
            (openCandidateCrds db)).1.auditLog ++
          [ { entityType := "HIRE", entityId := none
              eventType := "CREATED", source := "BROKERCHECK_SYNC" } ] },
      (syncLoop env db { totalFetched := (openCandidateCrds db).length } []
        (openCandidateCrds db)).2.1,
      (syncLoop env db { totalFetched := (openCandidateCrds db).length } []
        (openCandidateCrds db)).2.2)

/-! ### Concrete fixtures (shared across several claims) -/

/-- A vendor with an empty terms bag (all windows fall back to the
configured default). -/
def exVendor : Vendor := ⟨1, "Boardy", some {}, true⟩

/-- A vendor whose terms pin the attribution window at 12 months. -/
def exVendor12 : Vendor := ⟨2, "Boardy12", some { attributionWindowMonths := some 12 }, true⟩

/-- OPEN introduction for CRD 555, logged 2024-01-01. -/
def exIntroJan : Introduction := ⟨10, 1, 555, "Ann", "Lee", ⟨2024, 1, 1⟩, "c1", .OPEN⟩

/-- OPEN introduction for CRD 555, logged 2024-02-01 (same candidate,
later conversation). -/
def exIntroFeb : Introduction := ⟨11, 1, 555, "Ann", "Lee", ⟨2024, 2, 1⟩, "c2", .OPEN⟩

/-- Hire of CRD 555 dated 2024-06-01. -/
def exHire : Hire := ⟨20, 555, "Ann", "Lee", "Stirlingshire", none, ⟨2024, 6, 1⟩, .INTERNAL_ONBOARDING⟩

/-- Hire of CRD 555 dated 2023-12-20 — before `exIntroJan`'s timestamp. -/
def exHireEarly : Hire := ⟨23, 555, "Ann", "Lee", "Stirlingshire", none, ⟨2023, 12, 20⟩, .INTERNAL_ONBOARDING⟩

/-- Baseline store: one vendor, the two OPEN introductions for CRD 555,
one hire. -/
def exDb : DB := ⟨[exVendor], [exIntroFeb, exIntroJan], [exHire], [], [], [], 100⟩

/-- Store for the C3 scenario: an OPEN introduction dated after the only
hire on record. -/
def exDbC3 : DB := ⟨[exVendor], [exIntroJan], [exHireEarly], [], [], [], 100⟩

/-- OPEN introduction for CRD 777 logged 2024-01-15 at the window-12
vendor. -/
def exIntroC4 : Introduction := ⟨12, 2, 777, "Bo", "Kim", ⟨2024, 1, 15⟩, "c4", .OPEN⟩

/-- Hire of CRD 777 dated 2025-01-15 (monthsDiff 12). -/
def exHireIn : Hire := ⟨21, 777, "Bo", "Kim", "Stirlingshire", none, ⟨2025, 1, 15⟩, .INTERNAL_ONBOARDING⟩

/-- Hire of CRD 777 dated 2025-02-15 (monthsDiff 13). -/
def exHireOut : Hire := ⟨22, 777, "Bo", "Kim", "Stirlingshire", none, ⟨2025, 2, 15⟩, .INTERNAL_ONBOARDING⟩

/-- Store for the attribution-window boundary scenario. -/
def exDbC4 : DB := ⟨[exVendor12], [exIntroC4], [exHireIn, exHireOut], [], [], [], 100⟩

/-- Baseline environment: default window 12 months, notifications
succeed, clock at 2024-06-01, sync enabled, candidate-list fetch
succeeds, registry reports no affiliation. -/
def exEnv : Env where
  defaultAttributionWindowMonths := 12
  vendorNotifySucceeds := true
  today := ⟨2024, 6, 1⟩
  syncEnabled := true
  introFetchOk := true
  introFetchError := "ECONNRESET"
  registry := fun _ => .notFound

/-- Store with no OPEN introductions (the baseline hire still present). -/
def exDbNoOpen : DB := ⟨[exVendor], [], [exHire], [], [], [], 100⟩

/-- Registry record placing CRD 555 at the monitored firm. -/
def exAdv555 : RegistryAdvisor := ⟨555, "Ann", "Lee", 310576, "Stirlingshire"⟩

/-- Environment whose registry reports CRD 555 as affiliated (everything
else as in `exEnv`). -/
def exEnvFound : Env where
  defaultAttributionWindowMonths := 12
  vendorNotifySucceeds := true
  today := ⟨2024, 6, 1⟩
  syncEnabled := true
  introFetchOk := true
  introFetchError := "ECONNRESET"
  registry := fun c => if c = 555 then .found exAdv555 else .notFound

/-- Environment whose registry call throws a transient "timeout" error
for every CRD. -/
def exEnvFail : Env where
  defaultAttributionWindowMonths := 12
  vendorNotifySucceeds := true
  today := ⟨2024, 6, 1⟩
  syncEnabled := true
  introFetchOk := true
  introFetchError := "ECONNRESET"
  registry := fun _ => .failed "timeout"

/-- Environment whose open-introduction fetch itself throws. -/
def exEnvNoFetch : Env where
  defaultAttributionWindowMonths := 12
  vendorNotifySucceeds := true
  today := ⟨2024, 6, 1⟩
  syncEnabled := true
  introFetchOk := false
  introFetchError := "ECONNRESET"
  registry := fun _ => .notFound

/-- Fresh create-introduction request: CRD 555, conversation "c9", logged
2024-01-15, no meeting. -/
def exDtoC5 : CreateIntroductionDto := ⟨555, "Ann", "Lee", "c9", ⟨2024, 1, 15⟩, none⟩

/-- A hire request whose triple (555, Stirlingshire, 2024-07-01) is fresh
in the baseline store. -/
def exDtoC6 : CreateHireDto := ⟨555, "Ann", "Lee", "Stirlingshire", none, ⟨2024, 7, 1⟩, none⟩

/-- The placement row inserted by `PlacementsService.create` when invoked
by the matching engine (no fee override, default currency). -/
def newPlacementRow (db : DB) (intro : Introduction) (hire : Hire) : Placement := {
  id := db.nextId
  vendorId := intro.vendorId
  introductionId := intro.id
  hireId := hire.id
  candidateCrd := hire.crdNumber
  hireDate := hire.hireDate
  feeAmount := resolveFee none (vendorTermsFor db intro)
  feeCurrency := "USD"
  termsSnapshot := vendorTermsFor db intro
  status := PlacementState.PENDING_NOTIFY }

/-! ### Shared lemmas about the store primitives -/

theorem findBy_cons (p : α → Prop) [DecidablePred p] (x : α) (xs : List α) :
    findBy p (x :: xs) = if p x then some x else findBy p xs := rfl

theorem findBy_mem_prop {p : α → Prop} [DecidablePred p] {l : List α} {x : α}
    (h : findBy p l = some x) : p x ∧ x ∈ l := by
  induction l with
  | nil => simp [findBy] at h
  | cons a t ih =>
    rw [findBy_cons] at h
    by_cases hpa : p a
    · rw [if_pos hpa] at h
      cases h
      exact ⟨hpa, by simp⟩
    · rw [if_neg hpa] at h
      rcases ih h with ⟨hp, hm⟩
      exact ⟨hp, List.mem_cons_of_mem a hm⟩

theorem countBy_cons (p : α → Prop) [DecidablePred p] (x : α) (xs : List α) :
    countBy p (x :: xs) = (if p x then 1 else 0) + countBy p xs := rfl

theorem countBy_append (p : α → Prop) [DecidablePred p] (l1 l2 : List α) :
    countBy p (l1 ++ l2) = countBy p l1 + countBy p l2 := by
  induction l1 with
  | nil => simp [countBy]
  | cons a t ih => simp [countBy, ih]; omega

theorem countBy_eq_zero_of_findBy_eq_none {p : α → Prop} [DecidablePred p] {l : List α}
    (h : findBy p l = none) : countBy p l = 0 := by
  induction l with
  | nil => rfl
  | cons a t ih =>
    rw [findBy_cons] at h
    by_cases hpa : p a
    · rw [if_pos hpa] at h; cases h
    · rw [if_neg hpa] at h
      simp [countBy, hpa, ih h]

/-! ### Claim theorems -/

/-- Claim C4: the attribution-window test is the calendar-month difference
`(hireYear - introYear) * 12 + (hireMonth - introMonth)` — independent of
the day fields, hence not an elapsed-day count — and for introduction
timestamp 2024-01-15 with a 12-month window, a hire dated 2025-01-15
(monthsDiff 12) is accepted by the matching engine while one dated
2025-02-15 (monthsDiff 13) is not. -/
theorem attributionWindow_calendar_month_semantics :
    (∀ a b : SDate, monthsDiff a b = (b.year - a.year) * 12 + (b.month - a.month)) ∧
    (∀ a b : SDate, ∀ d d' : Int,
      monthsDiff { a with day := d } { b with day := d' } = monthsDiff a b) ∧
    monthsDiff ⟨2024, 1, 15⟩ ⟨2025, 1, 15⟩ = 12 ∧
    monthsDiff ⟨2024, 1, 15⟩ ⟨2025, 2, 15⟩ = 13 ∧
    acceptsIntro exEnv exDbC4 exHireIn exIntroC4 = true ∧
    acceptsIntro exEnv exDbC4 exHireOut exIntroC4 = false ∧
    (matchHireToIntroductions exEnv exDbC4 21).toOption.map (fun r => r.2.1.isSome) = some true ∧
    (matchHireToIntroductions exEnv exDbC4 22).toOption.map (fun r => r.2.1.isSome) = some false :=
  ⟨fun _ _ => rfl, fun _ _ _ _ => rfl, by decide, by decide, by decide, by decide,
    by decide, by decide⟩

/-- Claim C7: a reconciliation run started (sync enabled) while the
consecutive-failure counter is at or above the threshold of 5 is skipped
entirely: the run returns the empty "Circuit breaker open" summary, makes
zero external registry calls, creates no hires and no placements, leaves
the store untouched, and raises an alert instead. -/
theorem circuit_breaker_skips_run (env : Env) (st : SyncState) (db : DB)
    (henabled : env.syncEnabled = true)
    (hfail : maxFailures ≤ st.consecutiveFailures) :
    runWeeklySync env st db =
      (st, db, createEmptyResult "Circuit breaker open",
        [Effect.syncAlert "Circuit breaker open after repeated failures"]) ∧
    (∀ c, Effect.registryCall c ∉ (runWeeklySync env st db).2.2.2) ∧
    (runWeeklySync env st db).2.1.hires = db.hires ∧
    (runWeeklySync env st db).2.1.placements = db.placements ∧
    (∃ m, Effect.syncAlert m ∈ (runWeeklySync env st db).2.2.2) := by
  have h : runWeeklySync env st db =
      (st, db, createEmptyResult "Circuit breaker open",
        [Effect.syncAlert "Circuit breaker open after repeated failures"]) := by
    unfold runWeeklySync
    rw [if_neg (by simp [henabled]), if_pos hfail]
  refine ⟨h, ?_, ?_, ?_, ?_⟩
  · intro c; rw [h]; simp
  · rw [h]
  · rw [h]
  · exact ⟨"Circuit breaker open after repeated failures", by rw [h]; simp⟩

/-- Claim C7 witness: counter at the threshold, sync enabled. -/
theorem circuit_breaker_skips_run_witness :
    runWeeklySync exEnv ⟨5⟩ exDb =
      (⟨5⟩, exDb, createEmptyResult "Circuit breaker open",
        [Effect.syncAlert "Circuit breaker open after repeated failures"]) :=
  (circuit_breaker_skips_run exEnv ⟨5⟩ exDb rfl (by decide)).1

/-- Claim C3 counterexample: `PlacementsService.create`, called directly,
accepts a hire dated 2023-12-20 against an introduction whose timestamp
is 2024-01-01 — the hire precedes the introduction (so the claimed
`hireDate ≥ introDate` re-validation does not happen), and the
calendar-month difference (-1) is numerically within the 12-month
window. -/
theorem placementCreate_accepts_hire_before_introduction :
    dateLe exIntroJan.introTimestamp exHireEarly.hireDate = false ∧
    monthsDiff exIntroJan.introTimestamp exHireEarly.hireDate ≤ 12 ∧
    (placementCreate exEnv exDbC3 10 23 none none).toOption.isSome = true := by decide

/-- Claim C3 (amended): when called directly, `PlacementsService.create`
recomputes and re-validates only the upper bound of the attribution
window — it succeeds only when the referenced introduction exists and is
OPEN, the hire exists, the CRDs match and `monthsDiff ≤ window`, and it
rejects `monthsDiff > window` with a BadRequest — but it does not
re-check `hireDate ≥ introDate`, so a hire dated before the introduction
is accepted when its monthsDiff is within the window. -/
theorem placementCreate_validates_window_bound_only (env : Env) (db : DB)
    (introductionId hireId : Nat) (feeOverride : Option Int) (feeCurrency : Option String) :
    (∀ db' p effs,
      placementCreate env db introductionId hireId feeOverride feeCurrency = .ok (db', p, effs) →
      ∃ intro hire, findIntroduction db introductionId = some intro ∧
        findHire db hireId = some hire ∧ intro.status = IntroStatus.OPEN ∧
        intro.candidateCrd = hire.crdNumber ∧
        monthsDiff intro.introTimestamp hire.hireDate ≤
          attributionWindow env (vendorTermsFor db intro)) ∧
    (∀ intro hire, findIntroduction db introductionId = some intro →
      findHire db hireId = some hire → intro.status = IntroStatus.OPEN →
      intro.candidateCrd = hire.crdNumber →
      attributionWindow env (vendorTermsFor db intro) <
        monthsDiff intro.introTimestamp hire.hireDate →
      placementCreate env db introductionId hireId feeOverride feeCurrency =
        .error (.badRequest "Hire date is outside attribution window")) := by
  constructor
  · intro db' p effs h
    unfold placementCreate at h
    rcases hfw : placementCreateFirstWrite env db introductionId hireId feeOverride feeCurrency
      with e | ⟨db1, p1⟩
    · rw [hfw] at h; cases h
    · unfold placementCreateFirstWrite at hfw
      split at hfw
      · exact Except.noConfusion hfw
      · rename_i intro hfi
        split at hfw
        · exact Except.noConfusion hfw
        · rename_i hst
          split at hfw
          · exact Except.noConfusion hfw
          · rename_i hire hfh
            split at hfw
            · exact Except.noConfusion hfw
            · rename_i hcrd
              split at hfw
              · exact Except.noConfusion hfw
              · rename_i hwin
                split at hfw
                · exact Except.noConfusion hfw
                · exact ⟨intro, hire, hfi, hfh, not_not.mp hst, not_not.mp hcrd,
                    le_of_not_lt hwin⟩
  · intro intro hire hfi hfh hst hcrd hwin
    simp only [placementCreate, placementCreateFirstWrite, hfi, hfh]
    rw [if_neg (by simp [hst]), if_neg (by simp [hcrd]), if_pos hwin]

/-- Claim C3 amended-theorem witness: the monthsDiff-13 hire is rejected
by direct creation against the window-12 introduction. -/
theorem placementCreate_validates_window_bound_only_witness :
    placementCreate exEnv exDbC4 12 22 none none =
      .error (.badRequest "Hire date is outside attribution window") :=
  (placementCreate_validates_window_bound_only exEnv exDbC4 12 22 none none).2
    exIntroC4 exHireOut (by decide) (by decide) (by decide) (by decide) (by decide)

/-- Idempotent branch of `IntroductionsService.create`: an existing
triple is returned unchanged with no write and no side effect. -/
theorem introCreate_existing {db : DB} {vendorId : Nat} {dto : CreateIntroductionDto}
    {x : Introduction}
    (h : findBy (introMatchesKey vendorId dto) db.introductions = some x) :
    introCreate db vendorId dto = (db, x, []) := by
  simp only [introCreate, h]

/-- Insert branch of `IntroductionsService.create`: with no existing
triple, the new row is inserted, audited and notified. -/
theorem introCreate_fresh {db : DB} {vendorId : Nat} {dto : CreateIntroductionDto}
    (h : findBy (introMatchesKey vendorId dto) db.introductions = none) :
    introCreate db vendorId dto =
      ({ db with
          introductions := newIntroRow db vendorId dto :: db.introductions
          auditLog := db.auditLog ++
            [ { entityType := "INTRODUCTION", entityId := some db.nextId
                eventType := "CREATED", source := "BOARDY_API" } ]
          nextId := db.nextId + 1 },
        newIntroRow db vendorId dto,
        (if dto.meetingStartTime.isSome then [Effect.bookMeeting dto.candidateCrd] else []) ++
          [Effect.slackNewIntroduction dto.candidateCrd]) := by
  simp only [introCreate, h]
  rfl

/-- Claim C5: `IntroductionsService.create` is idempotent on the triple
(vendor, candidate CRD, conversation reference): when no row with the
triple exists, calling it twice with the same triple returns the same
introduction id both times, the second call changes nothing in the store
(so exactly one row with the triple exists and the single CREATED audit
entry of the first call is not duplicated), performs no side effect and
raises no error (the operation is total). -/
theorem introCreate_idempotent (db0 : DB) (vendorId : Nat) (dto : CreateIntroductionDto)
    (hfresh : findBy (introMatchesKey vendorId dto) db0.introductions = none) :
    (introCreate (introCreate db0 vendorId dto).1 vendorId dto).2.1.id =
      (introCreate db0 vendorId dto).2.1.id ∧
    (introCreate (introCreate db0 vendorId dto).1 vendorId dto).1 =
      (introCreate db0 vendorId dto).1 ∧
    (introCreate (introCreate db0 vendorId dto).1 vendorId dto).2.2 = [] ∧
    countBy (introMatchesKey vendorId dto)
      (introCreate (introCreate db0 vendorId dto).1 vendorId dto).1.introductions = 1 ∧
    countBy (fun e => e.entityType = "INTRODUCTION" ∧ e.eventType = "CREATED")
      (introCreate (introCreate db0 vendorId dto).1 vendorId dto).1.auditLog =
      countBy (fun e => e.entityType = "INTRODUCTION" ∧ e.eventType = "CREATED")
        db0.auditLog + 1 := by
  have hkey : introMatchesKey vendorId dto (newIntroRow db0 vendorId dto) := ⟨rfl, rfl, rfl⟩
  have h1 := introCreate_fresh hfresh
  have h2 : (introCreate db0 vendorId dto).1.introductions =
      newIntroRow db0 vendorId dto :: db0.introductions := by rw [h1]
  have hfind : findBy (introMatchesKey vendorId dto)
      (introCreate db0 vendorId dto).1.introductions =
      some (newIntroRow db0 vendorId dto) := by
    rw [h2, findBy_cons, if_pos hkey]
  have h3 := introCreate_existing hfind
  have h4 : (introCreate db0 vendorId dto).1.auditLog = db0.auditLog ++
      [ { entityType := "INTRODUCTION", entityId := some db0.nextId
          eventType := "CREATED", source := "BOARDY_API" } ] := by rw [h1]
  refine ⟨?_, ?_, ?_, ?_, ?_⟩
  · rw [h3, h1]
  · rw [h3]
  · rw [h3]
  · rw [h3, h2, countBy_cons, if_pos hkey,
      countBy_eq_zero_of_findBy_eq_none hfresh]
  · rw [h3, h4, countBy_append]
    have h5 : countBy
        (fun e : AuditEntry => e.entityType = "INTRODUCTION" ∧ e.eventType = "CREATED")
        [ { entityType := "INTRODUCTION", entityId := some db0.nextId
            eventType := "CREATED", source := "BOARDY_API" } ] = 1 := by
      simp [countBy]
    omega

/-- Claim C5 witness: the "c9" conversation triple is fresh in the
baseline store. -/
theorem introCreate_idempotent_witness :
    (introCreate (introCreate exDb 1 exDtoC5).1 1 exDtoC5).2.1.id =
      (introCreate exDb 1 exDtoC5).2.1.id ∧
    (introCreate (introCreate exDb 1 exDtoC5).1 1 exDtoC5).1 =
      (introCreate exDb 1 exDtoC5).1 :=
  ⟨(introCreate_idempotent exDb 1 exDtoC5 (by decide)).1,
    (introCreate_idempotent exDb 1 exDtoC5 (by decide)).2.1⟩

/-- Duplicate branch of `HiresService.create`: an existing triple is
returned unchanged with no write. -/
theorem hireCreate_existing {db : DB} {dto : CreateHireDto} (src : String) {x : Hire}
    (h : findBy (hireMatchesKey dto) db.hires = some x) :
    hireCreate db dto src = (db, x) := by
  simp only [hireCreate, h]

/-- Insert branch of `HiresService.create`. -/
theorem hireCreate_fresh {db : DB} {dto : CreateHireDto} (src : String)
    (h : findBy (hireMatchesKey dto) db.hires = none) :
    hireCreate db dto src =
      ({ db with
          hires := newHireRow db dto :: db.hires
          auditLog := db.auditLog ++
            [ { entityType := "HIRE", entityId := some db.nextId
                eventType := "CREATED", source := src } ]
          nextId := db.nextId + 1 },
        newHireRow db dto) := by
  simp only [hireCreate, h]
  rfl

/-- Claim C6: `HiresService.create` is idempotent on the triple
(crdNumber, firmEntity, hireDate): when a row with an identical triple
exists, it is returned unchanged and nothing is written; when none
exists, a new row is inserted, and a second call with the same dto then
returns that row unchanged, writes nothing, and leaves exactly one row
with the triple. -/
theorem hireCreate_idempotent (db0 : DB) (dto : CreateHireDto) (src1 src2 : String) :
    (∀ h0, findBy (hireMatchesKey dto) db0.hires = some h0 →
      hireCreate db0 dto src1 = (db0, h0)) ∧
    (findBy (hireMatchesKey dto) db0.hires = none →
      (hireCreate db0 dto src1).1.hires = (hireCreate db0 dto src1).2 :: db0.hires ∧
      hireCreate (hireCreate db0 dto src1).1 dto src2 =
        ((hireCreate db0 dto src1).1, (hireCreate db0 dto src1).2) ∧
      countBy (hireMatchesKey dto) (hireCreate (hireCreate db0 dto src1).1 dto src2).1.hires
        = 1) := by
  constructor
  · intro h0 h
    exact hireCreate_existing src1 h
  · intro hfresh
    have hkey : hireMatchesKey dto (newHireRow db0 dto) := ⟨rfl, rfl, rfl⟩
    have h1 := hireCreate_fresh src1 hfresh
    have h2 : (hireCreate db0 dto src1).1.hires = newHireRow db0 dto :: db0.hires := by
      rw [h1]
    have hfind : findBy (hireMatchesKey dto) (hireCreate db0 dto src1).1.hires =
        some (newHireRow db0 dto) := by
      rw [h2, findBy_cons, if_pos hkey]
    have h3 := hireCreate_existing src2 hfind
    refine ⟨?_, ?_, ?_⟩
    · rw [h2, h1]
    · rw [h3, h1]
    · rw [h3, h2, countBy_cons, if_pos hkey,
        countBy_eq_zero_of_findBy_eq_none hfresh]

/-- Claim C6 witness. -/
theorem hireCreate_idempotent_witness :
    hireCreate (hireCreate exDb exDtoC6 "INTERNAL_API").1 exDtoC6 "INTERNAL_API" =
      ((hireCreate exDb exDtoC6 "INTERNAL_API").1, (hireCreate exDb exDtoC6 "INTERNAL_API").2) :=
  ((hireCreate_idempotent exDb exDtoC6 "INTERNAL_API" "INTERNAL_API").2 (by decide)).2.1

/-- Claim C9: every `IntroductionsController` handler operates on the
authenticated vendor's data: whatever vendor id appears in the URL path,
the service call is made with the authenticated vendor's own id, and a
successfully fetched introduction always belongs to the authenticated
vendor — so a vendor cannot create or access another vendor's
introductions by varying the path parameter. -/
theorem controller_scopes_to_authenticated_vendor (db : DB) (pathVendorId : Nat)
    (vendor : Vendor) (dto : CreateIntroductionDto) (crd id : Nat)
    (st : Option IntroStatus) :
    controllerIntroCreate db pathVendorId vendor dto = introCreate db vendor.id dto ∧
    controllerIntroFindByCrd db pathVendorId vendor crd = introFindByCrd db vendor.id crd ∧
    controllerIntroFindOne db pathVendorId vendor id = introFindOne db vendor.id id ∧
    controllerIntroUpdate db pathVendorId vendor id st =
      introUpdateStatus db vendor.id id st "BOARDY_API" ∧
    (∀ r, controllerIntroFindOne db pathVendorId vendor id = .ok r →
      r.vendorId = vendor.id) := by
  have heff : effectiveVendorId pathVendorId vendor = vendor.id := by
    unfold effectiveVendorId
    split
    · rfl
    · rename_i hne
      rw [not_not.mp hne]
  refine ⟨?_, ?_, ?_, ?_, ?_⟩
  · unfold controllerIntroCreate
    split
    · rfl
    · rename_i hne
      rw [not_not.mp hne]
  · unfold controllerIntroFindByCrd
    rw [heff]
  · unfold controllerIntroFindOne
    rw [heff]
  · unfold controllerIntroUpdate
    rw [heff]
  · intro r hr
    unfold controllerIntroFindOne at hr
    rw [heff] at hr
    unfold introFindOne at hr
    split at hr
    · exact Except.noConfusion hr
    · rename_i x hf
      cases hr
      exact (findBy_mem_prop hf).1.2

/-- Claim C9 witness: with path vendor id 99 and authenticated vendor 1,
the fetched introduction belongs to vendor 1. -/
theorem controller_scopes_to_authenticated_vendor_witness :
    controllerIntroCreate exDb 99 exVendor exDtoC5 = introCreate exDb 1 exDtoC5 ∧
    exIntroJan.vendorId = exVendor.id :=
  ⟨(controller_scopes_to_authenticated_vendor exDb 99 exVendor exDtoC5 555 10 none).1,
    (controller_scopes_to_authenticated_vendor exDb 99 exVendor exDtoC5 555 10 none).2.2.2.2
      exIntroJan rfl⟩

/-- Claim C1 (violation exhibit): the two writes of placement creation
are not atomic and PLACED is reachable without a placement.  First
half: after `prisma.placement.create` resolves and before the separate,
non-transactional `prisma.introduction.update` runs, the durable store
contains a placement referencing introduction 10 while that introduction
is still OPEN — the state the claim says never exists, and the state the
system is left in whenever the second write fails or the process dies
between the two awaits.  Second half: `IntroductionsService.updateStatus`
(exposed via PATCH) accepts PLACED directly, yielding a PLACED
introduction with no placement row. -/
theorem placement_writes_not_atomic :
    (∃ db1 p, placementCreateFirstWrite exEnv exDb 10 20 none none = .ok (db1, p) ∧
      p.introductionId = 10 ∧ p ∈ db1.placements ∧
      findIntroduction db1 10 = some exIntroJan ∧
      exIntroJan.status = IntroStatus.OPEN ∧
      (∃ pl ∈ db1.placements, ∃ i ∈ db1.introductions,
        pl.introductionId = i.id ∧ i.status ≠ IntroStatus.PLACED)) ∧
    (∃ db2 i, introUpdateStatus exDb 1 10 (some IntroStatus.PLACED) "BOARDY_API" =
        .ok (db2, i) ∧
      i.status = IntroStatus.PLACED ∧
      (findIntroduction db2 10).map (fun j => j.status) = some IntroStatus.PLACED ∧
      db2.placements = []) := by
  constructor
  · refine ⟨_, _, rfl, ?_, ?_, ?_, ?_, ?_⟩ <;> decide
  · refine ⟨_, _, rfl, ?_, ?_, ?_⟩ <;> decide

/-- Effects already emitted are preserved by the rest of the loop. -/
theorem syncLoop_effs_mono (env : Env) (crds : List Nat) :
    ∀ db res effs, ∀ e ∈ effs, e ∈ (syncLoop env db res effs crds).2.2 := by
  induction crds with
  | nil =>
    intro db res effs e he
    simpa [syncLoop] using he
  | cons crd rest ih =>
    intro db res effs e he
    cases hreg : env.registry crd with
    | failed msg =>
      simp only [syncLoop, hreg]
      exact ih _ _ _ e (by simp [he])
    | notFound =>
      simp only [syncLoop, hreg]
      exact ih _ _ _ e (by simp [he])
    | found adv =>
      simp only [syncLoop, hreg]
      rcases hm : matchHireToIntroductions env
          (hireCreate db (foundHireDto adv env.today) "BROKERCHECK_SYNC").1
          (hireCreate db (foundHireDto adv env.today) "BROKERCHECK_SYNC").2.id
        with e' | ⟨db2, pid?, matchEffs⟩
      · simp only [hm]
        exact ih _ _ _ e (by simp [he])
      · simp only [hm]
        exact ih _ _ _ e (by simp [he])

/-- Error messages already recorded are preserved by the rest of the
loop. -/
theorem syncLoop_errors_mono (env : Env) (crds : List Nat) :
    ∀ db res effs, ∀ m ∈ res.errors, m ∈ (syncLoop env db res effs crds).2.1.errors := by
  induction crds with
  | nil =>
    intro db res effs m hm
    simpa [syncLoop] using hm
  | cons crd rest ih =>
    intro db res effs m hm
    cases hreg : env.registry crd with
    | failed msg =>
      simp only [syncLoop, hreg]
      exact ih _ _ _ m (by simp [hm])
    | notFound =>
      simp only [syncLoop, hreg]
      exact ih _ _ _ m hm
    | found adv =>
      simp only [syncLoop, hreg]
      rcases hmt : matchHireToIntroductions env
          (hireCreate db (foundHireDto adv env.today) "BROKERCHECK_SYNC").1
          (hireCreate db (foundHireDto adv env.today) "BROKERCHECK_SYNC").2.id
        with e' | ⟨db2, pid?, matchEffs⟩
      · simp only [hmt]
        exact ih _ _ _ m (by simp [hm])
      · simp only [hmt]
        cases pid? with
        | none => exact ih _ _ _ m hm
        | some pid => exact ih _ _ _ m hm

/-- Every candidate in the list gets its registry call: a failure on one
candidate does not abort the scan of the remaining ones. -/
theorem syncLoop_calls_registry (env : Env) (crds : List Nat) :
    ∀ db res effs, ∀ crd ∈ crds,
      Effect.registryCall crd ∈ (syncLoop env db res effs crds).2.2 := by
  induction crds with
  | nil =>
    intro db res effs crd h
    cases h
  | cons c rest ih =>
    intro db res effs crd hc
    cases hreg : env.registry c with
    | failed msg =>
      simp only [syncLoop, hreg]
      rcases List.mem_cons.mp hc with rfl | hmem
      · exact syncLoop_effs_mono env rest _ _ _ _ (by simp)
      · exact ih _ _ _ crd hmem
    | notFound =>
      simp only [syncLoop, hreg]
      rcases List.mem_cons.mp hc with rfl | hmem
      · exact syncLoop_effs_mono env rest _ _ _ _ (by simp)
      · exact ih _ _ _ crd hmem
    | found adv =>
      simp only [syncLoop, hreg]
      rcases hmt : matchHireToIntroductions env
          (hireCreate db (foundHireDto adv env.today) "BROKERCHECK_SYNC").1
          (hireCreate db (foundHireDto adv env.today) "BROKERCHECK_SYNC").2.id
        with e' | ⟨db2, pid?, matchEffs⟩
      · simp only [hmt]
        rcases List.mem_cons.mp hc with rfl | hmem
        · exact syncLoop_effs_mono env rest _ _ _ _ (by simp)
        · exact ih _ _ _ crd hmem
      · simp only [hmt]
        rcases List.mem_cons.mp hc with rfl | hmem
        · exact syncLoop_effs_mono env rest _ _ _ _ (by simp)
        · exact ih _ _ _ crd hmem

/-- A registry failure on a candidate is recorded in the per-run error
list. -/
theorem syncLoop_records_failures (env : Env) (crds : List Nat) :
    ∀ db res effs, ∀ crd ∈ crds, ∀ msg, env.registry crd = .failed msg →
      ("Error checking CRD " ++ toString crd ++ ": " ++ msg) ∈
        (syncLoop env db res effs crds).2.1.errors := by
  induction crds with
  | nil =>
    intro db res effs crd h
    cases h
  | cons c rest ih =>
    intro db res effs crd hc msg hfail
    cases hreg : env.registry c with
    | failed msg0 =>
      simp only [syncLoop, hreg]
      rcases List.mem_cons.mp hc with rfl | hmem
      · rw [hreg] at hfail
        cases hfail
        exact syncLoop_errors_mono env rest _ _ _ _ (by simp)
      · exact ih _ _ _ crd hmem msg hfail
    | notFound =>
      simp only [syncLoop, hreg]
      rcases List.mem_cons.mp hc with rfl | hmem
      · rw [hreg] at hfail
        cases hfail
      · exact ih _ _ _ crd hmem msg hfail
    | found adv =>
      simp only [syncLoop, hreg]
      rcases hmt : matchHireToIntroductions env
          (hireCreate db (foundHireDto adv env.today) "BROKERCHECK_SYNC").1
          (hireCreate db (foundHireDto adv env.today) "BROKERCHECK_SYNC").2.id
        with e' | ⟨db2, pid?, matchEffs⟩
      · simp only [hmt]
        rcases List.mem_cons.mp hc with rfl | hmem
        · rw [hreg] at hfail
          cases hfail
        · exact ih _ _ _ crd hmem msg hfail
      · simp only [hmt]
        rcases List.mem_cons.mp hc with rfl | hmem
        · rw [hreg] at hfail
          cases hfail
        · exact ih _ _ _ crd hmem msg hfail

/-- The `hiresCreated` counter of the summary counts one per candidate
with a positive registry match — independent of whether the hire row
already existed. -/
theorem syncLoop_counts_hires (env : Env) (crds : List Nat) :
    ∀ db res effs, (syncLoop env db res effs crds).2.1.hiresCreated =
      res.hiresCreated + countBy (fun c => isFound (env.registry c) = true) crds := by
  induction crds with
  | nil =>
    intro db res effs
    simp [syncLoop, countBy]
  | cons c rest ih =>
    intro db res effs
    cases hreg : env.registry c with
    | failed msg =>
      simp only [syncLoop, hreg]
      rw [ih, countBy_cons]
      simp [isFound, hreg]
    | notFound =>
      simp only [syncLoop, hreg]
      rw [ih, countBy_cons]
      simp [isFound, hreg]
    | found adv =>
      simp only [syncLoop, hreg]
      rcases hmt : matchHireToIntroductions env
          (hireCreate db (foundHireDto adv env.today) "BROKERCHECK_SYNC").1
          (hireCreate db (foundHireDto adv env.today) "BROKERCHECK_SYNC").2.id
        with e' | ⟨db2, pid?, matchEffs⟩
      · simp only [hmt]
        rw [ih, countBy_cons]
        simp [isFound, hreg]
        omega
      · simp only [hmt]
        cases pid? with
        | none =>
          rw [ih, countBy_cons]
          simp [isFound, hreg]
          omega
        | some pid =>
          rw [ih, countBy_cons]
          simp [isFound, hreg]
          omega

/-- On every positive registry match the loop invokes Hire Create and
then MatchHireToIntroductions. -/
theorem syncLoop_invokes_on_found (env : Env) (crds : List Nat) :
    ∀ db res effs, ∀ crd ∈ crds, isFound (env.registry crd) = true →
      Effect.hireCreateCall crd ∈ (syncLoop env db res effs crds).2.2 ∧
      ∃ h, Effect.matchCall crd h ∈ (syncLoop env db res effs crds).2.2 := by
  induction crds with
  | nil =>
    intro db res effs crd h
    cases h
  | cons c rest ih =>
    intro db res effs crd hc hfound
    cases hreg : env.registry c with
    | failed msg =>
      simp only [syncLoop, hreg]
      rcases List.mem_cons.mp hc with rfl | hmem
      · rw [hreg] at hfound
        cases hfound
      · exact ih _ _ _ crd hmem hfound
    | notFound =>
      simp only [syncLoop, hreg]
      rcases List.mem_cons.mp hc with rfl | hmem
      · rw [hreg] at hfound
        cases hfound
      · exact ih _ _ _ crd hmem hfound
    | found adv =>
      simp only [syncLoop, hreg]
      rcases hmt : matchHireToIntroductions env
          (hireCreate db (foundHireDto adv env.today) "BROKERCHECK_SYNC").1
          (hireCreate db (foundHireDto adv env.today) "BROKERCHECK_SYNC").2.id
        with e' | ⟨db2, pid?, matchEffs⟩
      · simp only [hmt]
        rcases List.mem_cons.mp hc with rfl | hmem
        · exact ⟨syncLoop_effs_mono env rest _ _ _ _ (by simp),
            (hireCreate db (foundHireDto adv env.today) "BROKERCHECK_SYNC").2.id,
            syncLoop_effs_mono env rest _ _ _ _ (by simp)⟩
        · exact ih _ _ _ crd hmem hfound
      · simp only [hmt]
        rcases List.mem_cons.mp hc with rfl | hmem
        · exact ⟨syncLoop_effs_mono env rest _ _ _ _ (by simp),
            (hireCreate db (foundHireDto adv env.today) "BROKERCHECK_SYNC").2.id,
            syncLoop_effs_mono env rest _ _ _ _ (by simp)⟩
        · exact ih _ _ _ crd hmem hfound

/-- Deduplication only keeps elements of the original list. -/
theorem dedupGo_subset {x : Nat} : ∀ seen l, x ∈ dedupGo seen l → x ∈ l := by
  intro seen l
  induction l generalizing seen with
  | nil =>
    intro h
    cases h
  | cons a t ih =>
    intro h
    unfold dedupGo at h
    by_cases ha : a ∈ seen
    · rw [if_pos ha] at h
      exact List.mem_cons_of_mem a (ih _ h)
    · rw [if_neg ha] at h
      rcases List.mem_cons.mp h with rfl | h'
      · simp
      · exact List.mem_cons_of_mem a (ih _ h')

/-- Every gathered candidate CRD stems from a currently-OPEN
introduction. -/
theorem mem_openCandidateCrds {db : DB} {crd : Nat} (h : crd ∈ openCandidateCrds db) :
    ∃ i ∈ db.introductions, i.status = IntroStatus.OPEN ∧ i.candidateCrd = crd := by
  unfold openCandidateCrds dedupNats at h
  have h' := dedupGo_subset _ _ h
  rcases List.mem_map.mp h' with ⟨i, hi, rfl⟩
  rcases List.mem_filter.mp hi with ⟨hmem, hst⟩
  exact ⟨i, hmem, by simpa using hst, rfl⟩

/-- Claim C8 counterexample: a run with the failure counter at 3, sync
enabled and the candidate-list fetch succeeding — but zero open
introductions — returns early and leaves the counter at 3 instead of
resetting it to zero, contradicting "in every reconciliation run that
successfully obtains the candidate list … the consecutive-failure
counter [resets] to zero". -/
theorem sync_empty_candidate_run_keeps_counter :
    exEnv.syncEnabled = true ∧ exEnv.introFetchOk = true ∧ 3 < maxFailures ∧
    (runWeeklySync exEnv ⟨3⟩ exDbNoOpen).1.consecutiveFailures = 3 ∧
    (runWeeklySync exEnv ⟨3⟩ exDbNoOpen).1.consecutiveFailures ≠ 0 := by decide

/-- Claim C8 (amended): in a reconciliation run whose candidate-list
fetch succeeds and which gathers at least one candidate, a failure while
checking any single candidate is caught, recorded in the per-run error
list, and does not abort the run (every gathered candidate still gets
its registry call), and such a run resets the consecutive-failure
counter to zero; a run that gathers an empty candidate list returns
early with the counter unchanged; the counter increments (with an alert)
exactly when obtaining the candidate list itself fails. -/
theorem sync_run_error_containment (env : Env) (st : SyncState) (db : DB)
    (hen : env.syncEnabled = true) (hlt : st.consecutiveFailures < maxFailures) :
    (env.introFetchOk = true → openCandidateCrds db ≠ [] →
      (runWeeklySync env st db).1.consecutiveFailures = 0 ∧
      (∀ crd ∈ openCandidateCrds db,
        Effect.registryCall crd ∈ (runWeeklySync env st db).2.2.2) ∧
      (∀ crd ∈ openCandidateCrds db, ∀ msg, env.registry crd = .failed msg →
        ("Error checking CRD " ++ toString crd ++ ": " ++ msg) ∈
          (runWeeklySync env st db).2.2.1.errors)) ∧
    (env.introFetchOk = true → openCandidateCrds db = [] →
      (runWeeklySync env st db).1 = st) ∧
    (env.introFetchOk = false →
      (runWeeklySync env st db).1.consecutiveFailures = st.consecutiveFailures + 1 ∧
      Effect.syncAlert ("BrokerCheck sync failed: " ++ env.introFetchError) ∈
        (runWeeklySync env st db).2.2.2) := by
  have hbr : ¬(st.consecutiveFailures ≥ maxFailures) := not_le.mpr hlt
  refine ⟨?_, ?_, ?_⟩
  · intro hok hne
    have hlen : ¬((openCandidateCrds db).length = 0) := by
      simpa [List.length_eq_zero] using hne
    have hrun : runWeeklySync env st db =
        ({ consecutiveFailures := 0 },
          { (syncLoop env db { totalFetched := (openCandidateCrds db).length } []
              (openCandidateCrds db)).1 with
            auditLog := (syncLoop env db { totalFetched := (openCandidateCrds db).length } []
                (openCandidateCrds db)).1.auditLog ++
              [ { entityType := "HIRE", entityId := none
                  eventType := "CREATED", source := "BROKERCHECK_SYNC" } ] },
          (syncLoop env db { totalFetched := (openCandidateCrds db).length } []
            (openCandidateCrds db)).2.1,
          (syncLoop env db { totalFetched := (openCandidateCrds db).length } []
            (openCandidateCrds db)).2.2) := by
      unfold runWeeklySync
      rw [if_neg (by simp [hen]), if_neg hbr, if_neg (by simp [hok]), if_neg hlen]
    refine ⟨by rw [hrun], ?_, ?_⟩
    · intro crd hc
      rw [hrun]
      exact syncLoop_calls_registry env (openCandidateCrds db) _ _ _ crd hc
    · intro crd hc msg hfail
      rw [hrun]
      exact syncLoop_records_failures env (openCandidateCrds db) _ _ _ crd hc msg hfail
  · intro hok hemp
    unfold runWeeklySync
    rw [if_neg (by simp [hen]), if_neg hbr, if_neg (by simp [hok]),
      if_pos (by simp [hemp])]
  · intro hko
    unfold runWeeklySync
    rw [if_neg (by simp [hen]), if_neg hbr, if_pos (by simp [hko])]
    exact ⟨rfl, by simp⟩

/-- Claim C8 amended-theorem witness: one open candidate whose registry
call fails; the failure is recorded, the candidate was called, and the
counter resets from 2 to 0; with the fetch failing instead, the counter
increments from 2 to 3. -/
theorem sync_run_error_containment_witness :
    (runWeeklySync exEnvFail ⟨2⟩ exDb).1.consecutiveFailures = 0 ∧
    Effect.registryCall 555 ∈ (runWeeklySync exEnvFail ⟨2⟩ exDb).2.2.2 ∧
    ("Error checking CRD " ++ toString 555 ++ ": " ++ "timeout") ∈
      (runWeeklySync exEnvFail ⟨2⟩ exDb).2.2.1.errors ∧
    (runWeeklySync exEnvNoFetch ⟨2⟩ exDb).1.consecutiveFailures = 3 := by
  have h1 := (sync_run_error_containment exEnvFail ⟨2⟩ exDb rfl (by decide)).1 rfl (by decide)
  have h2 := (sync_run_error_containment exEnvNoFetch ⟨2⟩ exDb rfl (by decide)).2.2 rfl
  exact ⟨h1.1, h1.2.1 555 (by decide), h1.2.2 555 (by decide) "timeout" (by decide), h2.1⟩

/-- Claim C10: in a run that obtains its candidate list, the summary's
`hiresCreated` equals the number of gathered candidates with a positive
registry match — the counter is incremented even when `HiresService.create`
returned an already-existing row — and for every such candidate the loop
invokes Hire Create and then MatchHireToIntroductions; every gathered
candidate stems from a currently-OPEN introduction, so re-attribution is
attempted on every run until the candidate's introduction leaves OPEN. -/
theorem sync_counts_hires_on_every_positive_match (env : Env) (st : SyncState) (db : DB)
    (hen : env.syncEnabled = true) (hlt : st.consecutiveFailures < maxFailures)
    (hok : env.introFetchOk = true) (hne : openCandidateCrds db ≠ []) :
    (runWeeklySync env st db).2.2.1.hiresCreated =
      countBy (fun c => isFound (env.registry c) = true) (openCandidateCrds db) ∧
    (∀ crd ∈ openCandidateCrds db, isFound (env.registry crd) = true →
      Effect.hireCreateCall crd ∈ (runWeeklySync env st db).2.2.2 ∧
      ∃ h, Effect.matchCall crd h ∈ (runWeeklySync env st db).2.2.2) ∧
    (∀ crd ∈ openCandidateCrds db, ∃ i ∈ db.introductions,
      i.status = IntroStatus.OPEN ∧ i.candidateCrd = crd) := by
  have hbr : ¬(st.consecutiveFailures ≥ maxFailures) := not_le.mpr hlt
  have hlen : ¬((openCandidateCrds db).length = 0) := by
    simpa [List.length_eq_zero] using hne
  have hrun : runWeeklySync env st db =
      ({ consecutiveFailures := 0 },
        { (syncLoop env db { totalFetched := (openCandidateCrds db).length } []
            (openCandidateCrds db)).1 with
          auditLog := (syncLoop env db { totalFetched := (openCandidateCrds db).length } []
              (openCandidateCrds db)).1.auditLog ++
            [ { entityType := "HIRE", entityId := none
                eventType := "CREATED", source := "BROKERCHECK_SYNC" } ] },
        (syncLoop env db { totalFetched := (openCandidateCrds db).length } []
          (openCandidateCrds db)).2.1,
        (syncLoop env db { totalFetched := (openCandidateCrds db).length } []
          (openCandidateCrds db)).2.2) := by
    unfold runWeeklySync
    rw [if_neg (by simp [hen]), if_neg hbr, if_neg (by simp [hok]), if_neg hlen]
  refine ⟨?_, ?_, ?_⟩
  · rw [hrun]
    show (syncLoop env db { totalFetched := (openCandidateCrds db).length } []
      (openCandidateCrds db)).2.1.hiresCreated = _
    rw [syncLoop_counts_hires env (openCandidateCrds db) db _ []]
    simp
  · intro crd hc hfound
    rw [hrun]
    exact syncLoop_invokes_on_found env (openCandidateCrds db) _ _ _ crd hc hfound
  · intro crd hc
    exact mem_openCandidateCrds hc

/-- Claim C10 witness: CRD 555 has an OPEN introduction and a positive
registry match, and the identical hire triple (555, Stirlingshire,
2024-06-01) is already on record — `hiresCreated` still counts 1 and
both Hire Create and the matcher are invoked. -/
theorem sync_counts_hires_on_every_positive_match_witness :
    (findBy (hireMatchesKey (foundHireDto exAdv555 exEnvFound.today)) exDb.hires).isSome = true ∧
    (runWeeklySync exEnvFound ⟨0⟩ exDb).2.2.1.hiresCreated =
      countBy (fun c => isFound (exEnvFound.registry c) = true) (openCandidateCrds exDb) ∧
    Effect.hireCreateCall 555 ∈ (runWeeklySync exEnvFound ⟨0⟩ exDb).2.2.2 := by
  have h := sync_counts_hires_on_every_positive_match exEnvFound ⟨0⟩ exDb rfl
    (by decide) rfl (by decide)
  exact ⟨by decide, h.1, (h.2.1 555 (by decide) (by decide)).1⟩

/-! ### Matching engine: ordering facts and the success shape of create -/

theorem dateLe_refl (a : SDate) : dateLe a a = true := by
  simp [dateLe]

theorem dateLe_total (a b : SDate) : dateLe a b = true ∨ dateLe b a = true := by
  simp [dateLe]
  omega

theorem dateLe_trans {a b c : SDate} (h1 : dateLe a b = true) (h2 : dateLe b c = true) :
    dateLe a c = true := by
  simp [dateLe] at h1 h2 ⊢
  omega

/-- In a table with unique ids, `findUnique` on a member's id returns
exactly that member. -/
theorem findBy_id_unique {l : List Introduction}
    (hu : ∀ a ∈ l, ∀ b ∈ l, a.id = b.id → a = b) {x : Introduction} (hx : x ∈ l) :
    findBy (fun i => i.id = x.id) l = some x := by
  induction l with
  | nil => cases hx
  | cons a t ih =>
    rw [findBy_cons]
    by_cases ha : a.id = x.id
    · rw [if_pos ha]
      rw [hu a (by simp) x hx ha]
    · rw [if_neg ha]
      rcases List.mem_cons.mp hx with rfl | hxt
      · exact absurd rfl ha
      · exact ih (fun p hp q hq => hu p (List.mem_cons_of_mem a hp) q (List.mem_cons_of_mem a hq)) hxt

theorem map_eq_self_of {f : α → α} {l : List α} (h : ∀ x ∈ l, f x = x) :
    l.map f = l := by
  induction l with
  | nil => rfl
  | cons a t ih =>
    rw [List.map_cons, h a (by simp), ih (fun x hx => h x (List.mem_cons_of_mem a hx))]

/-- The exact store produced by a successful `PlacementsService.create`
run for an OPEN, CRD-matching, in-window introduction: one new placement
row, the introduction's status flipped to PLACED, the two audit entries,
and the notification outcome applied. -/
theorem placementCreate_success (env : Env) (db : DB) (intro : Introduction) (hire : Hire)
    (hfi : findIntroduction db intro.id = some intro)
    (hopen : intro.status = IntroStatus.OPEN)
    (hfh : findHire db hire.id = some hire)
    (hcrd : intro.candidateCrd = hire.crdNumber)
    (hwin : monthsDiff intro.introTimestamp hire.hireDate ≤
      attributionWindow env (vendorTermsFor db intro))
    (hnp : ¬ ∃ p ∈ db.placements, p.introductionId = intro.id)
    (hpfresh : ∀ p ∈ db.placements, p.id ≠ db.nextId) :
    placementCreate env db intro.id hire.id none none =
      .ok
        ({ vendors := db.vendors
           introductions := db.introductions.map (fun i =>
             if i.id = intro.id then { i with status := IntroStatus.PLACED } else i)
           hires := db.hires
           placements :=
             (if env.vendorNotifySucceeds then
                { newPlacementRow db intro hire with status := PlacementState.NOTIFIED }
              else newPlacementRow db intro hire) :: db.placements
           auditLog := db.auditLog ++
             [ { entityType := "PLACEMENT", entityId := some db.nextId
                 eventType := "CREATED", source := "SYSTEM" },
               { entityType := "INTRODUCTION", entityId := some intro.id
                 eventType := "STATUS_CHANGED", source := "SYSTEM" } ]
           brokerAdvisors := db.brokerAdvisors
           nextId := db.nextId + 1 },
         newPlacementRow db intro hire,
         [ Effect.vendorPlacementNotify intro.vendorId db.nextId,
           Effect.internalNewPlacement db.nextId,
           Effect.slackNewPlacement db.nextId ]) := by
  have h1 : placementCreateFirstWrite env db intro.id hire.id none none =
      .ok ({ db with
          placements := newPlacementRow db intro hire :: db.placements
          nextId := db.nextId + 1 },
        newPlacementRow db intro hire) := by
    simp only [placementCreateFirstWrite, hfi, hfh]
    rw [if_neg (by simp [hopen]), if_neg (by simp [hcrd]), if_neg (not_lt.mpr hwin),
      if_neg hnp]
    rfl
  have hmap : db.placements.map
      (fun p => if p.id = db.nextId then { p with status := PlacementState.NOTIFIED } else p) =
      db.placements :=
    map_eq_self_of (fun p hp => if_neg (hpfresh p hp))
  unfold placementCreate
  rw [h1]
  by_cases hn : env.vendorNotifySucceeds
  · simp only [setIntroductionStatus, setPlacementStatus, hn, if_pos]
    simp only [List.map_cons, newPlacementRow]
    simp [hmap]
  · simp only [setIntroductionStatus, setPlacementStatus, hn, if_neg]
    simp [newPlacementRow]

/-- Claim C2: for a hire whose candidate CRD has two or more OPEN
introductions, all passing the attribution-window test,
`matchHireToIntroductions` accepts the first scanned introduction — one
whose `introTimestamp` is least among all OPEN introductions for the
CRD — creates exactly one placement (a single new row, referencing that
introduction and this hire), transitions only that introduction to
PLACED (every other introduction row is untouched, so the remaining OPEN
ones stay OPEN), returns the created placement's id, and scans no
further. -/
theorem match_attributes_earliest_open_introduction (env : Env) (db : DB)
    (hireId : Nat) (hire : Hire)
    (hh : findHire db hireId = some hire)
    (huniq : ∀ a ∈ db.introductions, ∀ b ∈ db.introductions, a.id = b.id → a = b)
    (hpfresh : ∀ p ∈ db.placements, p.id ≠ db.nextId)
    (hinv : ∀ p ∈ db.placements, ∀ i ∈ db.introductions, p.introductionId = i.id →
      i.status = IntroStatus.PLACED)
    (htwo : 2 ≤ (openFor db hire.crdNumber).length)
    (hacc : ∀ i ∈ openFor db hire.crdNumber, acceptsIntro env db hire i = true) :
    ∃ i0, i0 ∈ openFor db hire.crdNumber ∧
      (∀ i ∈ openFor db hire.crdNumber, dateLe i0.introTimestamp i.introTimestamp = true) ∧
      (newPlacementRow db i0 hire).introductionId = i0.id ∧
      (newPlacementRow db i0 hire).hireId = hire.id ∧
      matchHireToIntroductions env db hireId =
        .ok
          ({ vendors := db.vendors
             introductions := db.introductions.map (fun i =>
               if i.id = i0.id then { i with status := IntroStatus.PLACED } else i)
             hires := db.hires
             placements :=
               (if env.vendorNotifySucceeds then
                  { newPlacementRow db i0 hire with status := PlacementState.NOTIFIED }
                else newPlacementRow db i0 hire) :: db.placements
             auditLog := db.auditLog ++
               [ { entityType := "PLACEMENT", entityId := some db.nextId
                   eventType := "CREATED", source := "SYSTEM" },
                 { entityType := "INTRODUCTION", entityId := some i0.id
                   eventType := "STATUS_CHANGED", source := "SYSTEM" } ]
             brokerAdvisors := db.brokerAdvisors
             nextId := db.nextId + 1 },
           some (newPlacementRow db i0 hire).id,
           [ Effect.vendorPlacementNotify i0.vendorId db.nextId,
             Effect.internalNewPlacement db.nextId,
             Effect.slackNewPlacement db.nextId ]) := by
  obtain ⟨hid, hmemh⟩ := findBy_mem_prop hh
  have hperm := List.perm_insertionSort introTsLE (openFor db hire.crdNumber)
  have hlen : (findOpenIntroductionsForCrd db hire.crdNumber).length =
      (openFor db hire.crdNumber).length := hperm.length_eq
  rcases hs : findOpenIntroductionsForCrd db hire.crdNumber with _ | ⟨i0, rest⟩
  · rw [hs] at hlen
    simp at hlen
    omega
  · have hsorted : List.Sorted introTsLE (i0 :: rest) := by
      rw [← hs]
      exact List.sorted_insertionSort introTsLE (openFor db hire.crdNumber)
    have hmin : ∀ i ∈ openFor db hire.crdNumber,
        dateLe i0.introTimestamp i.introTimestamp = true := by
      intro i hi
      have hi' : i ∈ i0 :: rest := by
        rw [← hs]
        exact (hperm.mem_iff).mpr hi
      rcases List.mem_cons.mp hi' with rfl | hir
      · exact dateLe_refl _
      · exact List.rel_of_sorted_cons hsorted i hir
    have hmem0 : i0 ∈ openFor db hire.crdNumber := by
      have hh0 : i0 ∈ findOpenIntroductionsForCrd db hire.crdNumber := by
        rw [hs]
        simp
      exact (hperm.mem_iff).mp hh0
    have hmem0i : i0 ∈ db.introductions := (List.mem_filter.mp hmem0).1
    have hprops : i0.candidateCrd = hire.crdNumber ∧ i0.status = IntroStatus.OPEN := by
      have hp := (List.mem_filter.mp hmem0).2
      simpa using hp
    have hfi : findIntroduction db i0.id = some i0 := findBy_id_unique huniq hmem0i
    have hfh0 : findHire db hire.id = some hire := by
      rw [hid]
      exact hh
    have hacc0 := hacc i0 hmem0
    have haccsplit : monthsDiff i0.introTimestamp hire.hireDate ≤
        attributionWindow env (vendorTermsFor db i0) ∧
        dateLe i0.introTimestamp hire.hireDate = true := by
      have ha := hacc0
      simp [acceptsIntro, Bool.and_eq_true, decide_eq_true_eq] at ha
      exact ha
    have hnp : ¬ ∃ p ∈ db.placements, p.introductionId = i0.id := by
      rintro ⟨p, hp, he⟩
      have hpl := hinv p hp i0 hmem0i he
      rw [hprops.2] at hpl
      cases hpl
    have hcreate := placementCreate_success env db i0 hire hfi hprops.2 hfh0 hprops.1
      haccsplit.1 hnp hpfresh
    refine ⟨i0, hmem0, hmin, rfl, rfl, ?_⟩
    simp only [matchHireToIntroductions, hh, hs]
    rw [if_neg (by simp)]
    simp only [matchScan]
    rw [if_pos hacc0, hcreate]

/-- Claim C2 witness: the baseline store has two OPEN introductions for
CRD 555 (2024-02-01 and 2024-01-01), both within window of the hire
dated 2024-06-01; matching returns the placement created with the fresh
id 100. -/
theorem match_attributes_earliest_open_introduction_witness :
    (matchHireToIntroductions exEnv exDb 20).toOption.map (fun r => r.2.1) =
      some (some 100) := by
  obtain ⟨i0, hmem0, hmin, hintro, hhire, heq⟩ :=
    match_attributes_earliest_open_introduction exEnv exDb 20 exHire rfl (by decide)
      (by decide) (by decide) (by decide) (by decide)
  rw [heq]
  rfl

end StirBoardy
